import Mathlib

/-!
Verification of the xpost application logic (src/xpost.py): tweet-id
extraction from URLs, quote resolution, the password gate, credential
loading, and the main control flow, embedded shallowly.  Python strings
are modelled as lists of characters.
-/

/-- Python strings are modelled as lists of characters. -/
abbrev Str := List Char

/-- Errors raised by the application logic.  Both are `ValueError`s in the
source; the spec calls the extractor's one `InvalidURL` and the quote
resolver's one `ValidationError`. -/
inductive XError where
  | invalidURL (msg : Str)
  | validationError (msg : Str)
deriving DecidableEq

/-- The inclusive codepoint intervals of the Unicode general category Nd
(decimal digits), from the Unicode 14.0 character database that CPython
ships: in a `str` pattern, the `re` module's `\d` matches exactly the
characters of category Nd. -/
def ndRanges : List (Nat × Nat) :=
  [(48, 57), (1632, 1641), (1776, 1785), (1984, 1993), (2406, 2415),
   (2534, 2543), (2662, 2671), (2790, 2799), (2918, 2927), (3046, 3055),
   (3174, 3183), (3302, 3311), (3430, 3439), (3558, 3567), (3664, 3673),
   (3792, 3801), (3872, 3881), (4160, 4169), (4240, 4249), (6112, 6121),
   (6160, 6169), (6470, 6479), (6608, 6617), (6784, 6793), (6800, 6809),
   (6992, 7001), (7088, 7097), (7232, 7241), (7248, 7257), (42528, 42537),
   (43216, 43225), (43264, 43273), (43472, 43481), (43504, 43513),
   (43600, 43609), (44016, 44025), (65296, 65305), (66720, 66729),
   (68912, 68921), (69734, 69743), (69872, 69881), (69942, 69951),
   (70096, 70105), (70384, 70393), (70736, 70745), (70864, 70873),
   (71248, 71257), (71360, 71369), (71472, 71481), (71904, 71913),
   (72016, 72025), (72784, 72793), (73040, 73049), (73120, 73129),
   (92768, 92777), (92864, 92873), (93008, 93017), (120782, 120831),
   (123200, 123209), (123632, 123641), (125264, 125273), (130032, 130041)]

/-- A character matched by the pattern's `\d`: a Unicode decimal digit
(category Nd), e.g. `0`-`9` or ARABIC-INDIC DIGIT THREE (U+0663). -/
def isPyRegexDigit (c : Char) : Bool :=
  ndRanges.any (fun r => decide (r.1 ≤ c.toNat) && decide (c.toNat ≤ r.2))

/-- The inclusive codepoint intervals of the characters with
Numeric_Type=Digit in the same character database: superscripts such as
SUPERSCRIPT TWO (U+00B2), circled and parenthesized digits, and so on.
Together with category Nd (Numeric_Type=Decimal) these are exactly the
characters Python's `str.isdigit` counts as digits. -/
def digitOnlyRanges : List (Nat × Nat) :=
  [(178, 179), (185, 185), (4969, 4977), (6618, 6618), (8304, 8304),
   (8308, 8313), (8320, 8329), (9312, 9320), (9332, 9340), (9352, 9360),
   (9450, 9450), (9461, 9469), (9471, 9471), (10102, 10110), (10112, 10120),
   (10122, 10130), (68160, 68163), (69216, 69224), (69714, 69722),
   (127232, 127242)]

/-- A character Python's `str.isdigit` accepts: Numeric_Type=Decimal
(category Nd) or Numeric_Type=Digit. -/
def isPyDigitChar (c : Char) : Bool :=
  isPyRegexDigit c ||
    digitOnlyRanges.any (fun r => decide (r.1 ≤ c.toNat) && decide (c.toNat ≤ r.2))

/-- Python `str.isdigit` on a string: non-empty and all digit characters. -/
def pyIsDigit (s : Str) : Bool := !s.isEmpty && s.all isPyDigitChar

/-- Every `\d` character passes `str.isdigit`. -/
theorem isPyDigitChar_of_regexDigit {c : Char} (h : isPyRegexDigit c = true) :
    isPyDigitChar c = true := by
  simp [isPyDigitChar, h]

/-- Consume a literal from the front of a string: `consume? p s = some r`
exactly when `s = p ++ r`.  This models the regex engine matching the
literal `p` at the current position of the subject string. -/
def consume? : Str → Str → Option Str
  | [], s => some s
  | _ :: _, [] => none
  | p :: ps, c :: cs => if c = p then consume? ps cs else none

/-- The host part of the pattern, `(?:www\.)?(?:x\.com|twitter\.com)`, in the
regex engine's backtracking order over the optional `www.` and the
alternation.  The four literal candidates are pairwise incompatible (each
pair differs at the first position where both are defined), so committing to
the first that matches is exactly the regex engine's behaviour. -/
def hostAlt (s : Str) : Option Str :=
  match consume? ("www.x.com".data) s with
  | some r => some r
  | none =>
  match consume? ("www.twitter.com".data) s with
  | some r => some r
  | none =>
  match consume? ("x.com".data) s with
  | some r => some r
  | none => consume? ("twitter.com".data) s

/-- The optional `s` of `https?`: the regex greedily consumes an `s` when one
is present; when consuming it cannot be completed to a match, not consuming
cannot either (the next pattern character is `:`), so the greedy first
choice is the only candidate. -/
def optS (s : Str) : Str :=
  match s with
  | c :: r => if c = 's' then r else s
  | [] => s

/-- The path part of the pattern, `/[^/]+/status/(\d+)`, at the position
right after the host: `[^/]+` greedily takes the maximal non-slash run,
which must be non-empty and immediately followed by `/status/`; `(\d+)`
greedily captures the maximal run of Unicode decimal digits (category Nd,
Python's Unicode-mode `\d`), which must be non-empty; anything may follow
(prefix match). -/
def pathStage (s4 : Str) : Option Str :=
  (consume? ['/'] s4).bind fun s5 =>
    if s5.takeWhile (fun c => !(c == '/')) = [] then none
    else
      (consume? ("/status/".data) (s5.dropWhile (fun c => !(c == '/')))).bind fun s7 =>
        if s7.takeWhile isPyRegexDigit = [] then none
        else some (s7.takeWhile isPyRegexDigit)

/-- `re.match` of the pattern
`https?://(?:www\.)?(?:x\.com|twitter\.com)/[^/]+/status/(\d+)` against the
start of `url`, returning the captured group `(\d+)` on success. -/
def regexTweetId (url : Str) : Option Str :=
  (consume? ("http".data) url).bind fun s1 =>
    (consume? ("://".data) (optS s1)).bind fun s3 =>
      (hostAlt s3).bind fun s4 => pathStage s4

/-- The extractor's error message, the f-string with the input interpolated
at the end. -/
def invalidUrlText (url : Str) : Str :=
  ("Invalid URL or does not contain a valid post ID: ".data) ++ url

/-- Shallow embedding of `extract_tweet_id_from_url` (src/xpost.py, lines
64-77): match the pattern at the start of the input, take the captured digit
group, double-check it with `str.isdigit`, and otherwise raise `ValueError`
with a message carrying the offending input. -/
def extract_tweet_id_from_url (url : Str) : Except XError Str :=
  match regexTweetId url with
  | some tweet_id =>
    if pyIsDigit tweet_id then .ok tweet_id
    else .error (.invalidURL (invalidUrlText url))
  | none => .error (.invalidURL (invalidUrlText url))

/-- The full post-URL form of the spec's shape, assembled from its parts:
scheme `http`/`https`, `://`, optional `www.`, host, one path segment,
`/status/`, then the digit run. -/
def tweetUrlOfParts (secure www : Bool) (host seg digits : Str) : Str :=
  ("http".data) ++ (if secure then ['s'] else []) ++ ("://".data) ++
    (if www then ("www.".data) else []) ++ host ++ ['/'] ++ seg ++
    ("/status/".data) ++ digits

/-- A known social-platform host: `x.com` or `twitter.com`. -/
def isKnownHost (host : Str) : Prop :=
  host = ("x.com".data) ∨ host = ("twitter.com".data)

/-- A string matches the expected post-URL shape (as a prefix, the way
`re.match` matches) when it decomposes into scheme, optional `www.`, known
host, a non-empty slash-free segment, `/status/`, a non-empty run of
Unicode decimal digits and arbitrary trailing content. -/
def MatchesTweetUrlShape (url : Str) : Prop :=
  ∃ secure www host seg digits rest,
    isKnownHost host ∧ seg ≠ [] ∧ '/' ∉ seg ∧ digits ≠ [] ∧
    (∀ c ∈ digits, isPyRegexDigit c) ∧
    url = tweetUrlOfParts secure www host seg digits ++ rest

theorem consume_append (p s : Str) : consume? p (p ++ s) = some s := by
  induction p with
  | nil => rfl
  | cons a ps ih => simp [consume?, ih]

theorem consume_eq_some {p : Str} : ∀ {s r : Str},
    consume? p s = some r ↔ s = p ++ r := by
  induction p with
  | nil => intro s r; simp [consume?]
  | cons a ps ih =>
    intro s r
    cases s with
    | nil => simp [consume?]
    | cons c cs =>
      by_cases hca : c = a
      · subst hca; simp [consume?, ih]
      · simp [consume?, hca]

/-- Splitting `takeWhile`/`dropWhile` at the first failing element. -/
theorem takeWhile_append_cons {p : Char → Bool} {l : Str} (a : Char) (t : Str)
    (hl : ∀ c ∈ l, p c) (ha : ¬ p a) :
    (l ++ a :: t).takeWhile p = l ∧ (l ++ a :: t).dropWhile p = a :: t := by
  induction l with
  | nil => simp [List.takeWhile, List.dropWhile, ha]
  | cons c cs ih =>
    have hc : p c := hl c (by simp)
    have ihs := ih fun x hx => hl x (by simp [hx])
    simp [List.takeWhile, List.dropWhile, hc, ihs.1, ihs.2]

theorem takeWhile_of_all {p : Char → Bool} {l : Str} (hl : ∀ c ∈ l, p c) :
    l.takeWhile p = l :=
  List.takeWhile_eq_self_iff.mpr hl

/-- The head of what `dropWhile` leaves, if any, fails the predicate. -/
theorem head_dropWhile_not (p : Char → Bool) : ∀ l : Str, ∀ c ∈ (l.dropWhile p).head?, ¬ p c := by
  intro l
  induction l with
  | nil => simp [List.dropWhile]
  | cons a t ih =>
    by_cases hp : p a
    · simpa [List.dropWhile, hp] using ih
    · intro c hc
      simp [List.dropWhile, hp] at hc
      rw [← hc]
      simp [hp]

theorem optS_scheme (secure : Bool) (y : Str) :
    optS ((if secure then ['s'] else []) ++ ':' :: y) = ':' :: y := by
  cases secure <;> simp [optS]

/-- Every string is the optional `s` part followed by what `optS` leaves. -/
theorem optS_inv (s : Str) : ∃ b : Bool, s = (if b then ['s'] else []) ++ optS s := by
  cases s with
  | nil => exact ⟨false, rfl⟩
  | cons c r =>
    by_cases hc : c = 's'
    · subst hc; exact ⟨true, by simp [optS]⟩
    · exact ⟨false, by simp [optS, hc]⟩

/-- The head of the URL shape: scheme through host. -/
def headOfParts (secure www : Bool) (host : Str) : Str :=
  ("http".data) ++ (if secure then ['s'] else []) ++ ("://".data) ++
    (if www then ("www.".data) else []) ++ host

theorem tweetUrlOfParts_eq (secure www : Bool) (host seg digits : Str) :
    tweetUrlOfParts secure www host seg digits =
      headOfParts secure www host ++ ('/' :: (seg ++ ("/status/".data ++ digits))) := by
  simp [tweetUrlOfParts, headOfParts, List.append_assoc]

/-- The scheme/host part of the match on a well-formed head: what remains is
exactly the path stage on the tail. -/
theorem regexTweetId_head (secure www : Bool) (host : Str)
    (hhost : isKnownHost host) (t : Str) :
    regexTweetId (headOfParts secure www host ++ t) = pathStage t := by
  rcases hhost with h | h <;> subst h <;> cases secure <;> cases www <;>
    simp [regexTweetId, headOfParts, hostAlt, optS, consume?]

/-- The path stage on a well-formed tail yields the digit run when the run is
maximal (what follows does not start with a digit). -/
theorem pathStage_run (seg digits rest : Str) (hseg : seg ≠ []) (hslash : '/' ∉ seg)
    (hdig : digits ≠ []) (hdigall : ∀ c ∈ digits, isPyRegexDigit c)
    (hrest : ∀ c ∈ rest.head?, ¬ (isPyRegexDigit c = true)) :
    pathStage ('/' :: (seg ++ ("/status/".data ++ (digits ++ rest)))) = some digits := by
  have hl : ∀ c ∈ seg, (!(c == '/')) = true := by
    intro c hc
    have hne : c ≠ '/' := fun h => hslash (h ▸ hc)
    simp [hne]
  obtain ⟨ht, hd⟩ := takeWhile_append_cons (p := fun c => !(c == '/')) '/'
    ("status/".data ++ (digits ++ rest)) (l := seg) hl (by simp)
  have htake : (digits ++ rest).takeWhile isPyRegexDigit = digits := by
    cases rest with
    | nil => simpa using takeWhile_of_all hdigall
    | cons c t =>
      exact (takeWhile_append_cons c t hdigall (by simpa using hrest c (by simp))).1
  have h5 : consume? ['/'] ('/' :: (seg ++ ("/status/".data ++ (digits ++ rest))))
      = some (seg ++ ("/status/".data ++ (digits ++ rest))) := by simp [consume?]
  have hsplit : seg ++ (("/status/".data : Str) ++ (digits ++ rest))
      = seg ++ '/' :: ("status/".data ++ (digits ++ rest)) := rfl
  have h7 : consume? ("/status/".data) ('/' :: (("status/".data : Str) ++ (digits ++ rest)))
      = some (digits ++ rest) := by
    simp [consume?]
  rw [pathStage, h5, Option.some_bind]
  simp only [hsplit, ht, hd]
  rw [if_neg hseg, h7, Option.some_bind]
  simp only [htake]
  rw [if_neg hdig]

/-- The regex match on a well-formed URL followed by non-digit content
returns exactly the shape's digit run. -/
theorem regexTweetId_run (secure www : Bool) (host seg digits rest : Str)
    (hhost : isKnownHost host) (hseg : seg ≠ []) (hslash : '/' ∉ seg)
    (hdig : digits ≠ []) (hdigall : ∀ c ∈ digits, isPyRegexDigit c)
    (hrest : ∀ c ∈ rest.head?, ¬ (isPyRegexDigit c = true)) :
    regexTweetId (tweetUrlOfParts secure www host seg digits ++ rest) = some digits := by
  have hshape : tweetUrlOfParts secure www host seg digits ++ rest
      = headOfParts secure www host ++ ('/' :: (seg ++ ("/status/".data ++ (digits ++ rest)))) := by
    rw [tweetUrlOfParts_eq]
    simp [List.append_assoc]
  rw [hshape, regexTweetId_head _ _ _ hhost,
    pathStage_run _ _ _ hseg hslash hdig hdigall hrest]

theorem hostAlt_inv {s r : Str} (h : hostAlt s = some r) :
    ∃ (www : Bool) (host : Str), isKnownHost host ∧
      s = (if www then ("www.".data) else []) ++ (host ++ r) := by
  unfold hostAlt at h
  split at h
  · next heq =>
    obtain rfl : _ = r := Option.some.inj h
    exact ⟨true, "x.com".data, Or.inl rfl, by simpa using consume_eq_some.mp heq⟩
  · split at h
    · next heq =>
      obtain rfl : _ = r := Option.some.inj h
      exact ⟨true, "twitter.com".data, Or.inr rfl, by simpa using consume_eq_some.mp heq⟩
    · split at h
      · next heq =>
        obtain rfl : _ = r := Option.some.inj h
        exact ⟨false, "x.com".data, Or.inl rfl, by simpa using consume_eq_some.mp heq⟩
      · exact ⟨false, "twitter.com".data, Or.inr rfl, by simpa using consume_eq_some.mp h⟩

theorem pathStage_inv {s4 d : Str} (h : pathStage s4 = some d) :
    ∃ seg rest, seg ≠ [] ∧ '/' ∉ seg ∧ d ≠ [] ∧ (∀ c ∈ d, isPyRegexDigit c) ∧
      s4 = '/' :: (seg ++ ("/status/".data ++ (d ++ rest))) := by
  unfold pathStage at h
  cases h5 : consume? ['/'] s4 with
  | none => rw [h5] at h; simp at h
  | some s5 =>
    rw [h5, Option.some_bind] at h
    split at h
    · exact absurd h (by simp)
    · next hseg =>
      cases h7 : consume? ("/status/".data) (s5.dropWhile (fun c => !(c == '/'))) with
      | none => rw [h7] at h; simp at h
      | some s7 =>
        rw [h7, Option.some_bind] at h
        split at h
        · exact absurd h (by simp)
        · next hdig =>
          obtain rfl : _ = d := Option.some.inj h
          refine ⟨s5.takeWhile (fun c => !(c == '/')), s7.dropWhile isPyRegexDigit,
            hseg, ?_, hdig, ?_, ?_⟩
          · intro hmem
            have := List.mem_takeWhile_imp hmem
            simp at this
          · intro c hc
            exact List.mem_takeWhile_imp hc
          · have hs4 : s4 = '/' :: s5 := by simpa using consume_eq_some.mp h5
            have hs5 : s5 = s5.takeWhile (fun c => !(c == '/')) ++
                s5.dropWhile (fun c => !(c == '/')) :=
              (List.takeWhile_append_dropWhile _ _).symm
            have hs6 : s5.dropWhile (fun c => !(c == '/')) = ("/status/".data : Str) ++ s7 :=
              consume_eq_some.mp h7
            have hs7 : s7 = s7.takeWhile isPyRegexDigit ++ s7.dropWhile isPyRegexDigit :=
              (List.takeWhile_append_dropWhile _ _).symm
            rw [hs4]
            conv_lhs => rw [hs5, hs6, hs7]

theorem regexTweetId_shape {url d : Str} (h : regexTweetId url = some d) :
    d ≠ [] ∧ (∀ c ∈ d, isPyRegexDigit c) ∧ MatchesTweetUrlShape url := by
  unfold regexTweetId at h
  cases h1 : consume? ("http".data) url with
  | none => rw [h1] at h; simp at h
  | some s1 =>
    rw [h1, Option.some_bind] at h
    cases h2 : consume? ("://".data) (optS s1) with
    | none => rw [h2] at h; simp at h
    | some s3 =>
      rw [h2, Option.some_bind] at h
      cases h3 : hostAlt s3 with
      | none => rw [h3] at h; simp at h
      | some s4 =>
        rw [h3, Option.some_bind] at h
        obtain ⟨seg, rest, hseg, hslash, hd, hall, hs4⟩ := pathStage_inv h
        obtain ⟨secure, hs1⟩ := optS_inv s1
        obtain ⟨www, host, hknown, hs3⟩ := hostAlt_inv h3
        refine ⟨hd, hall, secure, www, host, seg, d, rest, hknown, hseg, hslash, hd, hall, ?_⟩
        have hurl : url = ("http".data : Str) ++ s1 := consume_eq_some.mp h1
        have hopt : optS s1 = ("://".data : Str) ++ s3 := consume_eq_some.mp h2
        rw [hurl]
        conv_lhs => rw [hs1, hopt, hs3, hs4]
        simp [tweetUrlOfParts, List.append_assoc]

theorem regexTweetId_isSome_of_shape {url : Str} (h : MatchesTweetUrlShape url) :
    ∃ d, regexTweetId url = some d := by
  obtain ⟨secure, www, host, seg, digits, rest, hknown, hseg, hslash, hdig, hall, hurl⟩ := h
  refine ⟨digits ++ rest.takeWhile isPyRegexDigit, ?_⟩
  have hurl2 : url = tweetUrlOfParts secure www host seg
      (digits ++ rest.takeWhile isPyRegexDigit) ++ rest.dropWhile isPyRegexDigit := by
    rw [hurl]
    conv_lhs =>
      rw [show rest = rest.takeWhile isPyRegexDigit ++ rest.dropWhile isPyRegexDigit from
        (List.takeWhile_append_dropWhile _ _).symm]
    simp [tweetUrlOfParts, List.append_assoc]
  rw [hurl2]
  refine regexTweetId_run _ _ _ _ _ _ hknown hseg hslash
    (fun hcontra => hdig (List.append_eq_nil.mp hcontra).1) ?_ ?_
  · intro c hc
    rcases List.mem_append.mp hc with hc | hc
    · exact hall c hc
    · exact List.mem_takeWhile_imp hc
  · exact head_dropWhile_not isPyRegexDigit rest

theorem matchesShape_iff (url : Str) :
    MatchesTweetUrlShape url ↔ (regexTweetId url).isSome = true := by
  constructor
  · intro h
    obtain ⟨d, hd⟩ := regexTweetId_isSome_of_shape h
    simp [hd]
  · intro h
    obtain ⟨d, hd⟩ := Option.isSome_iff_exists.mp h
    exact (regexTweetId_shape hd).2.2

/-- A successful regex match makes the extractor return the capture: the
captured group is a non-empty run of decimal digits, so the defensive
`isdigit` double-check always passes. -/
theorem extract_ok_of_regex {url d : Str} (h : regexTweetId url = some d)
    (hne : d ≠ []) (hall : ∀ c ∈ d, isPyRegexDigit c) :
    extract_tweet_id_from_url url = .ok d := by
  have hp : pyIsDigit d = true := by
    have hall2 : ∀ c ∈ d, isPyDigitChar c = true := fun c hc =>
      isPyDigitChar_of_regexDigit (hall c hc)
    simp [pyIsDigit, List.all_eq_true, hne]
    exact hall2
  simp [extract_tweet_id_from_url, h, hp]

/-- Claim C1: for every input string of the shape scheme `http` or `https`,
optional `www.` prefix, host `x.com` or `twitter.com`, then
`/<segment-without-slash>/status/<digits>`, the identifier extractor returns
exactly the captured digit sequence `<digits>`. -/
theorem extract_returns_digits_on_valid_url
    (secure www : Bool) (host seg digits : Str)
    (hhost : isKnownHost host) (hseg : seg ≠ []) (hslash : '/' ∉ seg)
    (hdig : digits ≠ []) (hdigall : ∀ c ∈ digits, isPyRegexDigit c) :
    extract_tweet_id_from_url (tweetUrlOfParts secure www host seg digits) = .ok digits := by
  have hrun := regexTweetId_run secure www host seg digits [] hhost hseg hslash hdig hdigall
    (by simp)
  rw [List.append_nil] at hrun
  exact extract_ok_of_regex hrun hdig hdigall

theorem extract_returns_digits_on_valid_url_witness :
    isKnownHost ("x.com".data) ∧ ("user".data ≠ ([] : Str)) ∧ '/' ∉ ("user".data) ∧
      ("123456789".data ≠ ([] : Str)) ∧ (∀ c ∈ ("123456789".data), isPyRegexDigit c) ∧
      extract_tweet_id_from_url
        (tweetUrlOfParts true false ("x.com".data) ("user".data) ("123456789".data))
        = .ok ("123456789".data) :=
  ⟨Or.inl rfl, by decide, by decide, by decide, by decide,
    extract_returns_digits_on_valid_url true false _ _ _ (Or.inl rfl) (by decide) (by decide)
      (by decide) (by decide)⟩

/-- Claim C2: for every input string that does not match the expected
post-URL shape, the extractor fails with an `InvalidURL` error whose message
includes the offending input string. -/
theorem extract_rejects_nonmatching (url : Str) (h : ¬ MatchesTweetUrlShape url) :
    ∃ msg, extract_tweet_id_from_url url = .error (.invalidURL msg) ∧ url <:+ msg := by
  cases hm : regexTweetId url with
  | some d => exact absurd (regexTweetId_shape hm).2.2 h
  | none =>
    refine ⟨invalidUrlText url, ?_, List.suffix_append _ _⟩
    unfold extract_tweet_id_from_url
    rw [hm]

theorem extract_rejects_nonmatching_witness :
    ∃ msg, extract_tweet_id_from_url ("https://example.com/user/status/123".data)
      = .error (.invalidURL msg) ∧ ("https://example.com/user/status/123".data) <:+ msg :=
  extract_rejects_nonmatching _ (by rw [matchesShape_iff]; decide)

/-- Claim C3: extraction is a prefix match anchored at the start, not a
full-string match: every string beginning with a valid post-URL shape is
accepted whatever follows, and when the trailing content does not extend the
digit run the extractor returns exactly those leading digits. -/
theorem extract_is_anchored_prefix_match
    (secure www : Bool) (host seg digits rest : Str)
    (hhost : isKnownHost host) (hseg : seg ≠ []) (hslash : '/' ∉ seg)
    (hdig : digits ≠ []) (hdigall : ∀ c ∈ digits, isPyRegexDigit c) :
    (∃ d, extract_tweet_id_from_url (tweetUrlOfParts secure www host seg digits ++ rest)
      = .ok d) ∧
    ((∀ c ∈ rest.head?, ¬ (isPyRegexDigit c = true)) →
      extract_tweet_id_from_url (tweetUrlOfParts secure www host seg digits ++ rest)
        = .ok digits) := by
  constructor
  · obtain ⟨d, hd⟩ := regexTweetId_isSome_of_shape
      ⟨secure, www, host, seg, digits, rest, hhost, hseg, hslash, hdig, hdigall, rfl⟩
    exact ⟨d, extract_ok_of_regex hd (regexTweetId_shape hd).1
      (regexTweetId_shape hd).2.1⟩
  · intro hrest
    exact extract_ok_of_regex
      (regexTweetId_run secure www host seg digits rest hhost hseg hslash hdig hdigall hrest)
      hdig hdigall

theorem extract_is_anchored_prefix_match_witness :
    isKnownHost ("x.com".data) ∧ ("user".data ≠ ([] : Str)) ∧ '/' ∉ ("user".data) ∧
      ("42".data ≠ ([] : Str)) ∧ (∀ c ∈ ("42".data), isPyRegexDigit c) ∧
      ((∃ d, extract_tweet_id_from_url
          (tweetUrlOfParts true false ("x.com".data) ("user".data) ("42".data) ++ ("?ref=a".data))
          = .ok d) ∧
        ((∀ c ∈ ("?ref=a".data : Str).head?, ¬ (isPyRegexDigit c = true)) →
          extract_tweet_id_from_url
            (tweetUrlOfParts true false ("x.com".data) ("user".data) ("42".data) ++ ("?ref=a".data))
            = .ok ("42".data))) :=
  ⟨Or.inl rfl, by decide, by decide, by decide, by decide,
    extract_is_anchored_prefix_match true false _ _ _ _ (Or.inl rfl) (by decide) (by decide)
      (by decide) (by decide)⟩


/-- The quote resolver's validation error message. -/
def quoteValidationText : Str :=
  ("quote_tweet_id must be a string representing a valid numeric ID.".data)

/-- Shallow embedding of `post_quote` (src/xpost.py, lines 80-100), with the
external `client.create_tweet` call abstracted as a pure function `client`
applied to the message and the resolved quote id: if the reference starts
with `http`, extract the id from it, otherwise treat the reference itself as
the id; validate that the resolved id is a digit string (the `isinstance`
check of the source is always true here, both branches produce a string);
then invoke the client with exactly that id. -/
def post_quote {α : Type} (client : Str → Str → α) (message ref : Str) : Except XError α :=
  match (if (consume? ("http".data) ref).isSome then extract_tweet_id_from_url ref
         else .ok ref) with
  | .error e => .error e
  | .ok quote_tweet_id =>
    if pyIsDigit quote_tweet_id then .ok (client message quote_tweet_id)
    else .error (.validationError quoteValidationText)

/-- Claim C4: a quote reference that does not start with `http` is treated as
a literal identifier, and resolution fails with a `ValidationError` whenever
the reference is not a non-empty digit-only string. -/
theorem post_quote_rejects_nondigit_literal {α : Type} (client : Str → Str → α)
    (message ref : Str) (hhttp : (consume? ("http".data) ref).isSome = false)
    (hnd : pyIsDigit ref = false) :
    post_quote client message ref = .error (.validationError quoteValidationText) := by
  unfold post_quote
  rw [if_neg (by simp [hhttp])]
  simp [hnd]

theorem post_quote_rejects_nondigit_literal_witness :
    ((consume? ("http".data) ("not-a-url".data)).isSome = false ∧
      pyIsDigit ("not-a-url".data) = false ∧
      post_quote (fun m q => (m, q)) ("hi".data) ("not-a-url".data)
        = .error (.validationError quoteValidationText)) ∧
    ((consume? ("http".data) ([] : Str)).isSome = false ∧ pyIsDigit ([] : Str) = false ∧
      post_quote (fun m q => (m, q)) ("hi".data) ([] : Str)
        = .error (.validationError quoteValidationText)) :=
  ⟨⟨by decide, by decide, post_quote_rejects_nondigit_literal _ _ _ (by decide) (by decide)⟩,
   ⟨by decide, by decide, post_quote_rejects_nondigit_literal _ _ _ (by decide) (by decide)⟩⟩

/-- A non-empty digit string cannot start with `http` (its head is a digit,
not `h`). -/
theorem digit_not_http (ref : Str) (h : pyIsDigit ref = true) :
    (consume? ("http".data) ref).isSome = false := by
  cases ref with
  | nil => simp [pyIsDigit] at h
  | cons c cs =>
    have hc : isPyDigitChar c = true := by
      simp [pyIsDigit, List.all_cons] at h
      exact h.1
    have hch : c ≠ 'h' := by
      intro he
      rw [he] at hc
      exact absurd hc (by decide)
    simp [consume?, hch]

/-- Claim C5: quote resolution is idempotent on an already-numeric reference:
a non-empty digit-only reference is passed through unchanged, and the
gateway call is invoked with exactly that identifier. -/
theorem post_quote_identity_on_digits {α : Type} (client : Str → Str → α)
    (message ref : Str) (h : pyIsDigit ref = true) :
    post_quote client message ref = .ok (client message ref) := by
  unfold post_quote
  rw [if_neg (by simp [digit_not_http ref h])]
  simp [h]

theorem post_quote_identity_on_digits_witness :
    pyIsDigit ("123456789".data) = true ∧
      post_quote (fun m q => (m, q)) ("hello".data) ("123456789".data)
        = .ok (("hello".data, "123456789".data)) :=
  ⟨by decide, post_quote_identity_on_digits _ _ _ (by decide)⟩

/-- Modelled from the spec: `hmac.compare_digest` of Python's standard
library is not part of this repository; the spec requires it to be a
constant-time comparison with no short-circuiting.  The model scans the
inputs to their full length, accumulating the running outcome instead of
returning early; the second component counts the comparison steps taken. -/
def cdRun : Str → Str → Bool → Bool × Nat
  | [], [], ok => (ok, 0)
  | [], _ :: bs, _ => ((cdRun [] bs false).1, (cdRun [] bs false).2 + 1)
  | _ :: as, [], _ => ((cdRun as [] false).1, (cdRun as [] false).2 + 1)
  | a :: as, b :: bs, ok =>
      ((cdRun as bs (ok && (a == b))).1, (cdRun as bs (ok && (a == b))).2 + 1)

/-- Modelled from the spec: the comparison entry point, run with a true
accumulator. -/
def compare_digest (a b : Str) : Bool × Nat := cdRun a b true

/-- The number of steps of the comparison depends only on the input
lengths. -/
theorem cdRun_snd : ∀ (a b : Str) (ok : Bool), (cdRun a b ok).2 = max a.length b.length := by
  intro a
  induction a with
  | nil =>
    intro b
    induction b with
    | nil => intro ok; simp [cdRun]
    | cons x xs ih =>
      intro ok
      simp [cdRun, ih false]
  | cons y ys ih =>
    intro b
    cases b with
    | nil =>
      intro ok
      simp [cdRun, ih [] false]
    | cons x xs =>
      intro ok
      simp [cdRun, ih xs (ok && (y == x))]
      omega

/-- The outcome of the comparison is the conjunction of the accumulator with
equality of the inputs. -/
theorem cdRun_fst : ∀ (a b : Str) (ok : Bool), (cdRun a b ok).1 = (ok && (a == b)) := by
  intro a
  induction a with
  | nil =>
    intro b
    induction b with
    | nil => intro ok; simp [cdRun]
    | cons x xs ih =>
      intro ok
      simp [cdRun, ih false]
  | cons y ys ih =>
    intro b
    cases b with
    | nil =>
      intro ok
      simp [cdRun, ih [] false]
    | cons x xs =>
      intro ok
      rw [show ((y :: ys : Str) == (x :: xs : Str)) = (y == x && ys == xs) from rfl]
      simp [cdRun, ih xs (ok && (y == x)), Bool.and_assoc]

/-- Claim C9: the password comparison runs in constant time with respect to
the contents of its inputs: its step count is a function of the input
lengths alone (so it reveals nothing about how much of the password
matched), and its outcome is exact equality. -/
theorem compare_digest_constant_time (a b a2 b2 : Str)
    (hla : a.length = a2.length) (hlb : b.length = b2.length) :
    (compare_digest a b).2 = (compare_digest a2 b2).2 ∧
      ((compare_digest a b).1 = true ↔ a = b) := by
  constructor
  · simp [compare_digest, cdRun_snd, hla, hlb]
  · simp [compare_digest, cdRun_fst]

theorem compare_digest_constant_time_witness :
    ("abc".data : Str).length = ("xyz".data : Str).length ∧
    ("ab".data : Str).length = ("qq".data : Str).length ∧
    ((compare_digest ("abc".data) ("ab".data)).2 = (compare_digest ("xyz".data) ("qq".data)).2 ∧
      ((compare_digest ("abc".data) ("ab".data)).1 = true ↔ ("abc".data : Str) = ("ab".data))) :=
  ⟨by decide, by decide, compare_digest_constant_time _ _ _ _ (by decide) (by decide)⟩

/-- The Streamlit session state, restricted to the keys the app touches:
`password_correct` and `password_input` (absent keys are `none`), plus the
remaining key-value pairs of the session, which the password callback never
touches. -/
structure SessionState where
  password_correct : Option Bool
  password_input : Option Str
  other : List (Str × Str)
deriving DecidableEq

/-- Shallow embedding of the form callback `password_entered` (src/xpost.py,
lines 106-115): compare the entered password against the configured secret
with `hmac.compare_digest`, record the boolean outcome in
`password_correct`, and delete `password_input` in both branches.  The
callback only runs after the form stored `password_input`; with the key
absent it is modelled as the identity. -/
def password_entered (secret : Str) (st : SessionState) : SessionState :=
  match st.password_input with
  | some pw =>
    if (compare_digest pw secret).1 then
      { st with password_correct := some true, password_input := none }
    else
      { st with password_correct := some false, password_input := none }
  | none => st

/-- What one run of the script does at the gate. -/
inductive GateOutcome where
  | granted
  | halted
deriving DecidableEq

/-- The generic failure message shown on a failed check. -/
def incorrectPasswordText : Str := ("😕 Incorrect password".data)

/-- Shallow embedding of `check_password` (src/xpost.py, lines 103-136): if
the session is already authenticated, grant access; otherwise run the
callback when the form was submitted, then grant if the flag is now true,
and otherwise display the generic error message and stop the script.
Returns the outcome, the updated session state and the displayed error. -/
def check_password (secret : Str) (submit : Bool) (st : SessionState) :
    GateOutcome × SessionState × Option Str :=
  if st.password_correct = some true then (.granted, st, none)
  else
    if (if submit then password_entered secret st else st).password_correct = some true then
      (.granted, if submit then password_entered secret st else st, none)
    else
      (.halted, if submit then password_entered secret st else st,
        some incorrectPasswordText)

/-- The callback stores exactly the comparison outcome and clears the
input. -/
theorem password_entered_eq (secret pw : Str) (st : SessionState)
    (hin : st.password_input = some pw) :
    password_entered secret st =
      { st with password_correct := some (pw == secret), password_input := none } := by
  have hcd : (compare_digest pw secret).1 = (pw == secret) := by
    simp [compare_digest, cdRun_fst]
  by_cases h : pw = secret
  · simp only [password_entered, hin]
    rw [if_pos (by rw [hcd]; simp [h])]
    simp [h]
  · simp only [password_entered, hin]
    rw [if_neg (by rw [hcd]; simp [h])]
    simp [h]

/-- Claim C6: from a locked state, submitting the configured shared secret
sets the authenticated flag and grants access; submitting any other string
leaves the gate locked (flag false), halts the script, and shows the fixed
generic failure message, a constant carrying no information about partial
matches. -/
theorem check_password_gate (secret pw : Str) (st : SessionState)
    (hlocked : st.password_correct ≠ some true)
    (hin : st.password_input = some pw) :
    (pw = secret →
      (check_password secret true st).1 = .granted ∧
      (check_password secret true st).2.1.password_correct = some true) ∧
    (pw ≠ secret →
      (check_password secret true st).1 = .halted ∧
      (check_password secret true st).2.1.password_correct = some false ∧
      (check_password secret true st).2.2 = some incorrectPasswordText) := by
  have hpe := password_entered_eq secret pw st hin
  constructor
  · intro he
    subst he
    simp [check_password, hlocked, hpe]
  · intro hne
    simp [check_password, hlocked, hpe, hne]

theorem check_password_gate_witness :
    ((⟨none, some ("s3c".data), []⟩ : SessionState).password_correct ≠ some true) ∧
    (check_password ("s3c".data) true ⟨none, some ("s3c".data), []⟩).1 = GateOutcome.granted ∧
    (check_password ("s3c".data) true ⟨none, some ("wrong".data), []⟩).1 = GateOutcome.halted :=
  ⟨by decide,
   ((check_password_gate ("s3c".data) ("s3c".data) ⟨none, some ("s3c".data), []⟩
      (by decide) rfl).1 rfl).1,
   ((check_password_gate ("s3c".data) ("wrong".data) ⟨none, some ("wrong".data), []⟩
      (by decide) rfl).2 (by decide)).1⟩

/-- Claim C10: after every password submission, whichever way the comparison
goes, the entered plaintext is deleted from the session state; only the
boolean flag is recorded, and the rest of the session is untouched. -/
theorem password_entered_deletes_input (secret pw : Str) (st : SessionState)
    (hin : st.password_input = some pw) :
    (password_entered secret st).password_input = none ∧
    password_entered secret st =
      { password_correct := some (pw == secret), password_input := none,
        other := st.other } := by
  have h := password_entered_eq secret pw st hin
  exact ⟨by rw [h], by rw [h]⟩

theorem password_entered_deletes_input_witness :
    ((⟨some false, some ("abc".data), [(("k".data : Str), ("v".data : Str))]⟩ :
        SessionState).password_input = some ("abc".data)) ∧
    ((password_entered ("xyz".data)
        ⟨some false, some ("abc".data), [(("k".data), ("v".data))]⟩).password_input = none ∧
      password_entered ("xyz".data)
          ⟨some false, some ("abc".data), [(("k".data), ("v".data))]⟩
        = ⟨some (("abc".data : Str) == ("xyz".data : Str)), none,
            [(("k".data), ("v".data))]⟩) :=
  ⟨rfl, password_entered_deletes_input ("xyz".data) ("abc".data) _ rfl⟩

/-- The four required credential keys (src/xpost.py, lines 21-26). -/
def CONSUMER_KEY : Str := ("CONSUMER_KEY".data)

def CONSUMER_SECRET : Str := ("CONSUMER_SECRET".data)

def ACCESS_TOKEN : Str := ("ACCESS_TOKEN".data)

def ACCESS_TOKEN_SECRET : Str := ("ACCESS_TOKEN_SECRET".data)

/-- The four credential strings loaded at startup. -/
structure Credentials where
  consumer_key : Str
  consumer_secret : Str
  access_token : Str
  access_token_secret : Str
deriving DecidableEq

/-- Shallow embedding of `load_credentials` (src/xpost.py, lines 12-26): the
secret store is a partial map from keys to values; an access to a missing
key raises `KeyError`, modelled as `.error` carrying the key, in the
source's access order. -/
def load_credentials (secrets : Str → Option Str) : Except Str Credentials :=
  match secrets CONSUMER_KEY with
  | none => .error CONSUMER_KEY
  | some ck =>
    match secrets CONSUMER_SECRET with
    | none => .error CONSUMER_SECRET
    | some cs =>
      match secrets ACCESS_TOKEN with
      | none => .error ACCESS_TOKEN
      | some atk =>
        match secrets ACCESS_TOKEN_SECRET with
        | none => .error ACCESS_TOKEN_SECRET
        | some ats => .ok ⟨ck, cs, atk, ats⟩

/-- The observable events of one script run, in order. -/
inductive Event where
  | errorShown (msg : Str)
  | scriptStopped
  | scriptCrashed (key : Str)
  | clientConstructed (creds : Credentials)
  | contentShown
  | apiCreateTweet (text : Str) (quoteId : Option Str)
  | successShown (id : Str)
  | rerunTriggered
deriving DecidableEq

def emptyTextMsg : Str := ("The text cannot be empty!".data)

/-- The text of an application error, as interpolated into the inline
message. -/
def errTextOf : XError → Str
  | .invalidURL m => m
  | .validationError m => m

def validationErrorText (e : XError) : Str := ("Validation error: ".data) ++ errTextOf e

def postingErrorText (e : Str) : Str := ("Error during posting: ".data) ++ e

/-- The posting block of `main` (src/xpost.py, lines 186-199): empty text is
rejected inline; otherwise post a quote when a quote reference was entered
and a plain post when not; a `ValueError` is rendered as a validation error,
an API failure as a posting error, and a successful response shows the
created post's id.  The API is contacted only where an `apiCreateTweet`
event is recorded. -/
def postAction (api : Str → Option Str → Except Str Str)
    (text quote_url : Str) : List Event :=
  if text = [] then [.errorShown emptyTextMsg]
  else if quote_url ≠ [] then
    match post_quote (fun m q => (m, q)) text quote_url with
    | .error e => [.errorShown (validationErrorText e)]
    | .ok (m, q) =>
      match api m (some q) with
      | .ok i => [.apiCreateTweet m (some q), .successShown i]
      | .error e => [.apiCreateTweet m (some q), .errorShown (postingErrorText e)]
  else
    match api text none with
    | .ok i => [.apiCreateTweet text none, .successShown i]
    | .error e => [.apiCreateTweet text none, .errorShown (postingErrorText e)]

/-- Shallow embedding of `main` (src/xpost.py, lines 139-205; the name
`main` itself is reserved in Lean) from the
password gate on (page configuration and CSS are presentation-only, and the
configuration file is external input).  `secret` is the store's
APP_PASSWORD; `secrets` is the credential store; `api` is the external
client's `create_tweet`, taking the text and the optional quote id.  One run
processes an optional password submission; when access is granted it loads
the credentials (a missing key crashes the run), constructs the client,
renders the protected content, and executes the post and logout actions. -/
def mainScript (secret : Str) (secrets : Str → Option Str)
    (api : Str → Option Str → Except Str Str)
    (submit postClicked logoutClicked : Bool) (text quote_url : Str)
    (st : SessionState) : List Event × SessionState :=
  match check_password secret submit st with
  | (.halted, st1, msg) =>
    ([.errorShown (msg.getD []), .scriptStopped], st1)
  | (.granted, st1, _) =>
    match load_credentials secrets with
    | .error k => ([.scriptCrashed k], st1)
    | .ok creds =>
      ([Event.clientConstructed creds, Event.contentShown] ++
        (if postClicked then postAction api text quote_url else []) ++
        (if logoutClicked then [Event.rerunTriggered] else []),
       if logoutClicked then { st1 with password_correct := none } else st1)

/-- Access granted means the gate's resulting state carries a true flag. -/
theorem check_password_granted_flag (secret : Str) (submit : Bool) (st : SessionState)
    (h : (check_password secret submit st).1 = .granted) :
    (check_password secret submit st).2.1.password_correct = some true := by
  by_cases h1 : st.password_correct = some true
  · simp [check_password, h1]
  · by_cases h2 : (if submit then password_entered secret st else st).password_correct
        = some true
    · simp [check_password, h1, h2]
    · simp [check_password, h1, h2] at h

/-- Claim C7: in every reachable state, an event that contacts the external
posting API occurs in a run only when the gate granted access with the
session's authenticated flag true; when the gate halts, the run contains no
client construction and no API call at all. -/
theorem api_requires_authentication (secret : Str) (secrets : Str → Option Str)
    (api : Str → Option Str → Except Str Str)
    (submit postClicked logoutClicked : Bool) (text quote_url : Str) (st : SessionState) :
    (∀ t q, Event.apiCreateTweet t q ∈
        (mainScript secret secrets api submit postClicked logoutClicked
          text quote_url st).1 →
      (check_password secret submit st).1 = .granted ∧
      (check_password secret submit st).2.1.password_correct = some true) ∧
    ((check_password secret submit st).1 = .halted →
      (∀ c, Event.clientConstructed c ∉
        (mainScript secret secrets api submit postClicked logoutClicked
          text quote_url st).1) ∧
      (∀ t q, Event.apiCreateTweet t q ∉
        (mainScript secret secrets api submit postClicked logoutClicked
          text quote_url st).1)) := by
  rcases hcp : check_password secret submit st with ⟨outcome, st1, msg⟩
  cases outcome with
  | halted =>
    constructor
    · intro t q hmem
      simp [mainScript, hcp] at hmem
    · intro _
      refine ⟨fun c => ?_, fun t q => ?_⟩ <;> simp [mainScript, hcp]
  | granted =>
    constructor
    · intro t q _
      have hflag := check_password_granted_flag secret submit st (by rw [hcp])
      rw [hcp] at hflag
      exact ⟨by simp, by simpa using hflag⟩
    · intro hh
      simp at hh

theorem api_requires_authentication_witness :
    (Event.apiCreateTweet ("hi".data) none ∈
      (mainScript ("s".data) (fun _ => some ("v".data)) (fun _ _ => .ok ("9".data))
        false true false ("hi".data) [] ⟨some true, none, []⟩).1) ∧
    ((check_password ("s".data) false ⟨some true, none, []⟩).1 = .granted ∧
      (check_password ("s".data) false
        ⟨some true, none, []⟩).2.1.password_correct = some true) := by
  have h := (api_requires_authentication ("s".data) (fun _ => some ("v".data))
    (fun _ _ => .ok ("9".data)) false true false ("hi".data) []
    ⟨some true, none, []⟩).1 ("hi".data) none (by decide)
  exact ⟨by decide, h⟩

/-- The credential loader fails as soon as one of the four required keys is
absent from the secret store. -/
theorem load_credentials_missing {secrets : Str → Option Str}
    (hmiss : secrets CONSUMER_KEY = none ∨ secrets CONSUMER_SECRET = none ∨
      secrets ACCESS_TOKEN = none ∨ secrets ACCESS_TOKEN_SECRET = none) :
    ∃ k, load_credentials secrets = .error k := by
  unfold load_credentials
  rcases hmiss with h | h | h | h
  · exact ⟨CONSUMER_KEY, by rw [h]⟩
  · cases h1 : secrets CONSUMER_KEY with
    | none => exact ⟨CONSUMER_KEY, by rfl⟩
    | some v => exact ⟨CONSUMER_SECRET, by rw [h]⟩
  · cases h1 : secrets CONSUMER_KEY with
    | none => exact ⟨CONSUMER_KEY, by rfl⟩
    | some v =>
      cases h2 : secrets CONSUMER_SECRET with
      | none => exact ⟨CONSUMER_SECRET, by rfl⟩
      | some w => exact ⟨ACCESS_TOKEN, by rw [h]⟩
  · cases h1 : secrets CONSUMER_KEY with
    | none => exact ⟨CONSUMER_KEY, by rfl⟩
    | some v =>
      cases h2 : secrets CONSUMER_SECRET with
      | none => exact ⟨CONSUMER_SECRET, by rfl⟩
      | some w =>
        cases h3 : secrets ACCESS_TOKEN with
        | none => exact ⟨ACCESS_TOKEN, by rfl⟩
        | some u => exact ⟨ACCESS_TOKEN_SECRET, by rw [h]⟩

/-- Claim C8: if any of the four required credential strings is absent from
the secret store, credential loading fails, and no run of the application
constructs the posting client, serves the protected content, contacts the
API or reports a successful post: the run either halts at the gate or
crashes at credential loading. -/
theorem missing_credentials_fatal (secret : Str) (secrets : Str → Option Str)
    (api : Str → Option Str → Except Str Str)
    (submit postClicked logoutClicked : Bool) (text quote_url : Str) (st : SessionState)
    (hmiss : secrets CONSUMER_KEY = none ∨ secrets CONSUMER_SECRET = none ∨
      secrets ACCESS_TOKEN = none ∨ secrets ACCESS_TOKEN_SECRET = none) :
    (∃ k, load_credentials secrets = .error k) ∧
    (∀ c, Event.clientConstructed c ∉
      (mainScript secret secrets api submit postClicked logoutClicked
        text quote_url st).1) ∧
    (Event.contentShown ∉
      (mainScript secret secrets api submit postClicked logoutClicked
        text quote_url st).1) ∧
    (∀ t q, Event.apiCreateTweet t q ∉
      (mainScript secret secrets api submit postClicked logoutClicked
        text quote_url st).1) ∧
    (∀ i, Event.successShown i ∉
      (mainScript secret secrets api submit postClicked logoutClicked
        text quote_url st).1) := by
  obtain ⟨k, hk⟩ := load_credentials_missing hmiss
  refine ⟨⟨k, hk⟩, ?_, ?_, ?_, ?_⟩ <;>
  · rcases hcp : check_password secret submit st with ⟨outcome, st1, msg⟩
    cases outcome <;> simp [mainScript, hcp, hk]

theorem missing_credentials_fatal_witness :
    ((fun _ => (none : Option Str)) CONSUMER_KEY = none) ∧
    (∃ k, load_credentials (fun _ => none) = .error k) ∧
    (Event.contentShown ∉
      (mainScript ("s".data) (fun _ => none) (fun _ _ => .ok ("9".data))
        false true false ("hi".data) [] ⟨some true, none, []⟩).1) := by
  have h := missing_credentials_fatal ("s".data) (fun _ => none) (fun _ _ => .ok ("9".data))
    false true false ("hi".data) [] ⟨some true, none, []⟩ (Or.inl rfl)
  exact ⟨rfl, h.1, h.2.2.1⟩
